import Mathlib

/-!
Verification of the rotary dial pulse decoder in src/main.cpp.

The sketch decodes digits from a rotary telephone dial using two interrupt
handlers (onPulse for the pulse contact, onShuntChange for the shunt contact)
and a safety-timeout check in loop.  All mutable globals of the sketch
(pulseCount, dialing, lastPulseTime, dialingTimeout, lastDialState,
lastPulseState) together with the two static debounce timestamps inside the
handlers are gathered into one MachineState record.  Serial output lines that
the spec treats as events are modelled by the DialEvent type; each handler
returns the updated state together with the list of events it prints.
Timestamps are natural numbers of milliseconds; the millis clock is monotone
and executions are assumed shorter than the 32-bit wrap, so unsigned C
subtraction coincides with truncated Nat subtraction on all stored values.
-/

/-- Rest level of both input lines (active-low switches with pull-ups). -/
def HIGH : Bool := true

/-- Active level of both input lines. -/
def LOW : Bool := false

/-- Debounce time for the pulse switch (PULSE_DEBOUNCE_MS in the source). -/
def PULSE_DEBOUNCE_MS : Nat := 20

/-- Debounce time for the dial switch (DIAL_DEBOUNCE_MS in the source). -/
def DIAL_DEBOUNCE_MS : Nat := 50

/-- Base timeout constant; loop uses twice this value as the safety timeout. -/
def DIAL_TIMEOUT_MS : Nat := 1500

/-- All mutable state of the sketch: the volatile globals plus the two static
debounce timestamps (lastPulseDebounce in onPulse, lastDialDebounce in
onShuntChange). -/
structure MachineState where
  pulseCount : Nat
  dialing : Bool
  lastPulseTime : Nat
  dialingTimeout : Nat
  lastDialState : Bool
  lastPulseState : Bool
  lastPulseDebounce : Nat
  lastDialDebounce : Nat
  deriving DecidableEq, Repr

/-- Events the machine reports on the serial stream, as named by the spec:
Started is the "[Dial started turning]" line, Ended is "[Dial returned to
rest]", digit is the "Digit dialed: d (n pulses)" line and safetyTimeout is
the "[Safety timeout - dial may be stuck]" line (carrying the pulse count
held by the machine when it fires). -/
inductive DialEvent where
  | started
  | ended
  | digit (value : Nat) (pulses : Nat)
  | safetyTimeout (pulses : Nat)
  deriving DecidableEq, Repr

/-- State at boot: counters and timestamps zero, both lines at rest (HIGH),
not dialing. -/
def initialState : MachineState where
  pulseCount := 0
  dialing := false
  lastPulseTime := 0
  dialingTimeout := 0
  lastDialState := HIGH
  lastPulseState := HIGH
  lastPulseDebounce := 0
  lastDialDebounce := 0

/-- Body of onPulse once the debounce window has passed and the sampled level
differs from the last stable pulse level, i.e. the handling of a committed
(debounced) pulse edge: record the debounce time, count the pulse when
dialing and the new level is HIGH, and commit the new level. -/
def pulseEdge (level : Bool) (now : Nat) (s : MachineState) :
    MachineState × List DialEvent :=
  let s1 := { s with lastPulseDebounce := now }
  let s2 :=
    if s1.dialing ∧ level = HIGH then
      { s1 with pulseCount := s1.pulseCount + 1, lastPulseTime := now,
                dialingTimeout := now }
    else s1
  ({ s2 with lastPulseState := level }, [])

/-- The onPulse interrupt handler: reject the sample inside the 20 ms window,
otherwise act only on a level change. -/
def onPulse (level : Bool) (now : Nat) (s : MachineState) :
    MachineState × List DialEvent :=
  if now - s.lastPulseDebounce < PULSE_DEBOUNCE_MS then (s, [])
  else if level ≠ s.lastPulseState then pulseEdge level now s
  else (s, [])

/-- Body of onShuntChange once the debounce window has passed and the sampled
level differs from the last stable shunt level, i.e. the handling of a
committed shunt edge: going LOW while idle starts a dialing cycle; going HIGH
while dialing ends it and reports the digit when at least one pulse was
counted. -/
def shuntEdge (level : Bool) (now : Nat) (s : MachineState) :
    MachineState × List DialEvent :=
  let s0 := { s with lastDialDebounce := now }
  if ¬s0.dialing ∧ level = LOW then
    ({ s0 with dialing := true, pulseCount := 0, dialingTimeout := now,
               lastDialState := level }, [DialEvent.started])
  else if s0.dialing ∧ level = HIGH then
    let s1 := { s0 with dialing := false, lastDialState := level }
    if s0.pulseCount > 0 then
      (s1, [DialEvent.ended,
            DialEvent.digit (if s0.pulseCount = 10 then 0 else s0.pulseCount)
              s0.pulseCount])
    else (s1, [DialEvent.ended])
  else ({ s0 with lastDialState := level }, [])

/-- The onShuntChange interrupt handler: reject the sample inside the 50 ms
window, otherwise act only on a level change. -/
def onShuntChange (level : Bool) (now : Nat) (s : MachineState) :
    MachineState × List DialEvent :=
  if now - s.lastDialDebounce < DIAL_DEBOUNCE_MS then (s, [])
  else if level ≠ s.lastDialState then shuntEdge level now s
  else (s, [])

/-- Safety-timeout portion of loop: while dialing, once strictly more than
DIAL_TIMEOUT_MS * 2 = 3000 ms have passed since dialingTimeout (set at dial
start and refreshed by every counted pulse), stop dialing, print the safety
timeout line and, when pulses were counted, also the digit line.  The
progress-dot display in loop writes only to the serial console, reads no
event state and is not part of the event model. -/
def loopTick (now : Nat) (s : MachineState) : MachineState × List DialEvent :=
  if s.dialing ∧ DIAL_TIMEOUT_MS * 2 < now - s.dialingTimeout then
    let s1 := { s with dialing := false }
    if s.pulseCount > 0 then
      (s1, [DialEvent.safetyTimeout s.pulseCount,
            DialEvent.digit (if s.pulseCount = 10 then 0 else s.pulseCount)
              s.pulseCount])
    else (s1, [DialEvent.safetyTimeout s.pulseCount])
  else (s, [])

/-- One external stimulus: a raw line sample delivered to an interrupt
handler, or one pass of the loop at a given time. -/
inductive Input where
  | pulse (level : Bool) (t : Nat)
  | shunt (level : Bool) (t : Nat)
  | tick (t : Nat)
  deriving DecidableEq, Repr

/-- Process one raw input through the corresponding handler. -/
def step (s : MachineState) : Input → MachineState × List DialEvent
  | Input.pulse level t => onPulse level t s
  | Input.shunt level t => onShuntChange level t s
  | Input.tick t => loopTick t s

/-- Process a list of raw inputs in order, concatenating emitted events. -/
def run (s : MachineState) : List Input → MachineState × List DialEvent
  | [] => (s, [])
  | i :: is =>
    let r1 := step s i
    let r2 := run r1.1 is
    (r2.1, r1.2 ++ r2.2)

/-- Deliver one already-debounced edge (or a tick) directly to the machine,
bypassing the debounce prologue of the handlers. -/
def stepEdge (s : MachineState) : Input → MachineState × List DialEvent
  | Input.pulse level t => pulseEdge level t s
  | Input.shunt level t => shuntEdge level t s
  | Input.tick t => loopTick t s

/-- Process a list of already-debounced edges in order. -/
def runEdges (s : MachineState) : List Input → MachineState × List DialEvent
  | [] => (s, [])
  | i :: is =>
    let r1 := stepEdge s i
    let r2 := runEdges r1.1 is
    (r2.1, r1.2 ++ r2.2)

/-- Events that report the outcome of a cycle to the host. -/
def isReport : DialEvent → Bool
  | DialEvent.digit _ _ => true
  | DialEvent.safetyTimeout _ => true
  | _ => false

/-- Every event other than Started closes or reports on a cycle. -/
def isCompletion : DialEvent → Bool
  | DialEvent.started => false
  | _ => true

/-- Prefix of an event list up to (excluding) the first Started event. -/
def eventsBeforeStarted : List DialEvent → List DialEvent
  | [] => []
  | DialEvent.started :: _ => []
  | e :: es => e :: eventsBeforeStarted es

/-- Times strictly increase and consecutive times are at least w apart,
starting from a given previous time. -/
def sepOK (w : Nat) : Nat → List Nat → Bool
  | _, [] => true
  | prev, t :: ts => (decide (prev < t) && decide (prev + w ≤ t)) && sepOK w t ts

/-- Last element of a time list, or the given default when empty. -/
def lastTime : Nat → List Nat → Nat
  | p, [] => p
  | _, t :: ts => lastTime t ts

/-- Inputs that do not touch the shunt line. -/
def noShunt : Input → Bool
  | Input.shunt _ _ => false
  | _ => true

/-! ### Branch characterizations of the handlers -/

theorem pulseEdge_snd (level : Bool) (t : Nat) (s : MachineState) :
    (pulseEdge level t s).2 = [] := rfl

theorem onPulse_snd (level : Bool) (t : Nat) (s : MachineState) :
    (onPulse level t s).2 = [] := by
  unfold onPulse
  split
  · rfl
  · split
    · exact pulseEdge_snd level t s
    · rfl

theorem pulseEdge_count (t : Nat) (s : MachineState) (hd : s.dialing = true) :
    pulseEdge HIGH t s =
      ({ s with pulseCount := s.pulseCount + 1, lastPulseTime := t,
                dialingTimeout := t, lastPulseDebounce := t,
                lastPulseState := HIGH }, []) := by
  simp [pulseEdge, hd, HIGH]

theorem pulseEdge_nocount (level : Bool) (t : Nat) (s : MachineState)
    (h : ¬(s.dialing = true ∧ level = HIGH)) :
    pulseEdge level t s =
      ({ s with lastPulseDebounce := t, lastPulseState := level }, []) := by
  simp [pulseEdge, h]

theorem shuntEdge_start (level : Bool) (t : Nat) (s : MachineState)
    (hd : s.dialing = false) (hl : level = LOW) :
    shuntEdge level t s =
      ({ s with lastDialDebounce := t, dialing := true, pulseCount := 0,
                dialingTimeout := t, lastDialState := level },
       [DialEvent.started]) := by
  subst hl
  simp [shuntEdge, hd, LOW]

theorem shuntEdge_end_digit (t : Nat) (s : MachineState)
    (hd : s.dialing = true) (hp : 0 < s.pulseCount) :
    shuntEdge HIGH t s =
      ({ s with lastDialDebounce := t, dialing := false, lastDialState := HIGH },
       [DialEvent.ended,
        DialEvent.digit (if s.pulseCount = 10 then 0 else s.pulseCount)
          s.pulseCount]) := by
  simp [shuntEdge, hd, hp, HIGH, LOW]

theorem shuntEdge_end_empty (t : Nat) (s : MachineState)
    (hd : s.dialing = true) (hp : s.pulseCount = 0) :
    shuntEdge HIGH t s =
      ({ s with lastDialDebounce := t, dialing := false, lastDialState := HIGH },
       [DialEvent.ended]) := by
  simp [shuntEdge, hd, hp, HIGH, LOW]

theorem shuntEdge_other (level : Bool) (t : Nat) (s : MachineState)
    (h1 : ¬(s.dialing = false ∧ level = LOW))
    (h2 : ¬(s.dialing = true ∧ level = HIGH)) :
    shuntEdge level t s =
      ({ s with lastDialDebounce := t, lastDialState := level }, []) := by
  simp [shuntEdge, HIGH, LOW] at h1 h2 ⊢
  cases hb : s.dialing <;> cases hl : level <;> simp_all

theorem loopTick_fire_digit (t : Nat) (s : MachineState)
    (hd : s.dialing = true) (ht : DIAL_TIMEOUT_MS * 2 < t - s.dialingTimeout)
    (hp : 0 < s.pulseCount) :
    loopTick t s = ({ s with dialing := false },
      [DialEvent.safetyTimeout s.pulseCount,
       DialEvent.digit (if s.pulseCount = 10 then 0 else s.pulseCount)
         s.pulseCount]) := by
  simp [loopTick, hd, ht, hp]

theorem loopTick_fire_empty (t : Nat) (s : MachineState)
    (hd : s.dialing = true) (ht : DIAL_TIMEOUT_MS * 2 < t - s.dialingTimeout)
    (hp : s.pulseCount = 0) :
    loopTick t s = ({ s with dialing := false },
      [DialEvent.safetyTimeout s.pulseCount]) := by
  simp [loopTick, hd, ht, hp]

theorem loopTick_skip (t : Nat) (s : MachineState)
    (h : ¬(s.dialing = true ∧ DIAL_TIMEOUT_MS * 2 < t - s.dialingTimeout)) :
    loopTick t s = (s, []) := by
  simp [loopTick, h]

/-! ### Debounce acceptance and rejection -/

theorem pulseEdge_commits (level : Bool) (now : Nat) (s : MachineState) :
    (pulseEdge level now s).1.lastPulseState = level ∧
    (pulseEdge level now s).1.lastPulseDebounce = now := by
  dsimp only [pulseEdge]
  split <;> exact ⟨rfl, rfl⟩

theorem shuntEdge_commits (level : Bool) (now : Nat) (s : MachineState) :
    (shuntEdge level now s).1.lastDialState = level ∧
    (shuntEdge level now s).1.lastDialDebounce = now := by
  dsimp only [shuntEdge]
  split
  · exact ⟨rfl, rfl⟩
  split
  · split <;> exact ⟨rfl, rfl⟩
  · exact ⟨rfl, rfl⟩

theorem onPulse_accept (level : Bool) (now : Nat) (s : MachineState)
    (h1 : level ≠ s.lastPulseState)
    (h2 : PULSE_DEBOUNCE_MS ≤ now - s.lastPulseDebounce) :
    onPulse level now s = pulseEdge level now s := by
  have hw : ¬ now - s.lastPulseDebounce < PULSE_DEBOUNCE_MS := by omega
  simp [onPulse, hw, h1]

theorem onPulse_reject (level : Bool) (now : Nat) (s : MachineState)
    (h : ¬(level ≠ s.lastPulseState ∧
           PULSE_DEBOUNCE_MS ≤ now - s.lastPulseDebounce)) :
    onPulse level now s = (s, []) := by
  by_cases hw : now - s.lastPulseDebounce < PULSE_DEBOUNCE_MS
  · simp [onPulse, hw]
  · have h1 : ¬ level ≠ s.lastPulseState := fun hne => h ⟨hne, by omega⟩
    simp [onPulse, hw, h1]

theorem onShuntChange_accept (level : Bool) (now : Nat) (s : MachineState)
    (h1 : level ≠ s.lastDialState)
    (h2 : DIAL_DEBOUNCE_MS ≤ now - s.lastDialDebounce) :
    onShuntChange level now s = shuntEdge level now s := by
  have hw : ¬ now - s.lastDialDebounce < DIAL_DEBOUNCE_MS := by omega
  simp [onShuntChange, hw, h1]

theorem onShuntChange_reject (level : Bool) (now : Nat) (s : MachineState)
    (h : ¬(level ≠ s.lastDialState ∧
           DIAL_DEBOUNCE_MS ≤ now - s.lastDialDebounce)) :
    onShuntChange level now s = (s, []) := by
  by_cases hw : now - s.lastDialDebounce < DIAL_DEBOUNCE_MS
  · simp [onShuntChange, hw]
  · have h1 : ¬ level ≠ s.lastDialState := fun hne => h ⟨hne, by omega⟩
    simp [onShuntChange, hw, h1]

/-- Claim C6: for each input line the debouncer accepts a sample (commits the
new level, updates its last-change timestamp to the sample time and hands the
edge to the machine) exactly when the sampled level differs from the last
stable level and at least the window of that line (20 ms for the pulse line,
50 ms for the shunt line) has elapsed since the last-change timestamp; every
other sample produces nothing and leaves the state unchanged. -/
theorem c6_debounce_accept_iff (s : MachineState) (level : Bool) (now : Nat) :
    ((level ≠ s.lastPulseState ∧
        PULSE_DEBOUNCE_MS ≤ now - s.lastPulseDebounce) →
      onPulse level now s = pulseEdge level now s ∧
      (onPulse level now s).1.lastPulseState = level ∧
      (onPulse level now s).1.lastPulseDebounce = now) ∧
    (¬(level ≠ s.lastPulseState ∧
        PULSE_DEBOUNCE_MS ≤ now - s.lastPulseDebounce) →
      onPulse level now s = (s, [])) ∧
    ((level ≠ s.lastDialState ∧
        DIAL_DEBOUNCE_MS ≤ now - s.lastDialDebounce) →
      onShuntChange level now s = shuntEdge level now s ∧
      (onShuntChange level now s).1.lastDialState = level ∧
      (onShuntChange level now s).1.lastDialDebounce = now) ∧
    (¬(level ≠ s.lastDialState ∧
        DIAL_DEBOUNCE_MS ≤ now - s.lastDialDebounce) →
      onShuntChange level now s = (s, [])) := by
  refine ⟨fun h => ?_, onPulse_reject level now s,
          fun h => ?_, onShuntChange_reject level now s⟩
  · have he := onPulse_accept level now s h.1 h.2
    rw [he]
    exact ⟨rfl, (pulseEdge_commits level now s).1,
           (pulseEdge_commits level now s).2⟩
  · have he := onShuntChange_accept level now s h.1 h.2
    rw [he]
    exact ⟨rfl, (shuntEdge_commits level now s).1,
           (shuntEdge_commits level now s).2⟩

/-- Witness for c6_debounce_accept_iff: at boot, a shunt LOW sample at 100 ms
is accepted and a pulse HIGH sample at 100 ms (equal to the rest level) is
rejected. -/
theorem c6_witness :
    onShuntChange LOW 100 initialState = shuntEdge LOW 100 initialState ∧
    onPulse HIGH 100 initialState = (initialState, []) :=
  ⟨((c6_debounce_accept_iff initialState LOW 100).2.2.1 (by decide)).1,
   (c6_debounce_accept_iff initialState HIGH 100).2.1 (by decide)⟩

/-! ### Reports leave the machine idle -/

theorem shuntEdge_report_idle (level : Bool) (t : Nat) (s : MachineState)
    (e : DialEvent) (h1 : e ∈ (shuntEdge level t s).2)
    (h2 : isReport e = true) :
    (shuntEdge level t s).1.dialing = false := by
  by_cases hd : s.dialing = true
  · by_cases hl : level = HIGH
    · subst hl
      by_cases hp : s.pulseCount = 0
      · rw [shuntEdge_end_empty t s hd hp]
      · rw [shuntEdge_end_digit t s hd (Nat.pos_of_ne_zero hp)]
    · rw [shuntEdge_other level t s (by simp [hd]) (by simp [hl])] at h1
      simp at h1
  · by_cases hl : level = LOW
    · rw [shuntEdge_start level t s (by simpa using hd) hl] at h1
      simp at h1
      subst h1
      simp [isReport] at h2
    · rw [shuntEdge_other level t s (by simp [hl]) (by simp [hd])] at h1
      simp at h1

theorem loopTick_mem_idle (t : Nat) (s : MachineState) (e : DialEvent)
    (h1 : e ∈ (loopTick t s).2) :
    (loopTick t s).1.dialing = false := by
  by_cases hc : s.dialing = true ∧ DIAL_TIMEOUT_MS * 2 < t - s.dialingTimeout
  · by_cases hp : s.pulseCount = 0
    · rw [loopTick_fire_empty t s hc.1 hc.2 hp]
    · rw [loopTick_fire_digit t s hc.1 hc.2 (Nat.pos_of_ne_zero hp)]
  · rw [loopTick_skip t s hc] at h1
    simp at h1

theorem onShuntChange_report_idle (level : Bool) (t : Nat) (s : MachineState)
    (e : DialEvent) (h1 : e ∈ (onShuntChange level t s).2)
    (h2 : isReport e = true) :
    (onShuntChange level t s).1.dialing = false := by
  by_cases hc : level ≠ s.lastDialState ∧ DIAL_DEBOUNCE_MS ≤ t - s.lastDialDebounce
  · rw [onShuntChange_accept level t s hc.1 hc.2] at h1 ⊢
    exact shuntEdge_report_idle level t s e h1 h2
  · rw [onShuntChange_reject level t s hc] at h1
    simp at h1

/-- A Dialing state with three counted pulses, as reached after the shunt
went LOW at 100 ms and pulses were counted at 220, 320 and 420 ms. -/
def sDial : MachineState where
  pulseCount := 3
  dialing := true
  lastPulseTime := 420
  dialingTimeout := 420
  lastDialState := LOW
  lastPulseState := HIGH
  lastPulseDebounce := 420
  lastDialDebounce := 100

/-- Claim C5: immediately after every emission of a digit or safetyTimeout
event the machine is no longer dialing (phase Idle), both for raw sampled
inputs and for already-debounced edges. -/
theorem c5_report_implies_idle :
    (∀ (s : MachineState) (i : Input) (e : DialEvent),
        e ∈ (step s i).2 → isReport e = true → (step s i).1.dialing = false) ∧
    (∀ (s : MachineState) (i : Input) (e : DialEvent),
        e ∈ (stepEdge s i).2 → isReport e = true →
          (stepEdge s i).1.dialing = false) := by
  constructor
  · intro s i e h1 h2
    cases i with
    | pulse level t =>
      rw [step, onPulse_snd] at h1
      simp at h1
    | shunt level t => exact onShuntChange_report_idle level t s e h1 h2
    | tick t => exact loopTick_mem_idle t s e h1
  · intro s i e h1 h2
    cases i with
    | pulse level t =>
      rw [stepEdge, pulseEdge_snd] at h1
      simp at h1
    | shunt level t => exact shuntEdge_report_idle level t s e h1 h2
    | tick t => exact loopTick_mem_idle t s e h1

/-- Witness for c5_report_implies_idle: the safety timeout firing at 3421 ms
in a dialing state with 3 pulses emits a safetyTimeout and leaves the machine
idle. -/
theorem c5_witness : (step sDial (Input.tick 3421)).1.dialing = false :=
  c5_report_implies_idle.1 sDial (Input.tick 3421) (DialEvent.safetyTimeout 3)
    (by decide) (by decide)

/-! ### Early samples and the boot debounce state -/

theorem onPulse_pres_dialDeb (level : Bool) (t : Nat) (s : MachineState) :
    (onPulse level t s).1.lastDialDebounce = s.lastDialDebounce := by
  unfold onPulse
  split
  · rfl
  split
  · dsimp only [pulseEdge]
    split <;> rfl
  · rfl

theorem loopTick_pres_dialDeb (t : Nat) (s : MachineState) :
    (loopTick t s).1.lastDialDebounce = s.lastDialDebounce := by
  unfold loopTick
  split
  · split <;> rfl
  · rfl

theorem run_noShunt_dialDeb (is : List Input) (s : MachineState)
    (h : is.all noShunt = true) :
    (run s is).1.lastDialDebounce = s.lastDialDebounce := by
  induction is generalizing s with
  | nil => rfl
  | cons i is ih =>
    rw [List.all_cons, Bool.and_eq_true] at h
    show (run (step s i).1 is).1.lastDialDebounce = s.lastDialDebounce
    rw [ih _ h.2]
    cases i with
    | pulse level t => exact onPulse_pres_dialDeb level t s
    | shunt level t => simp [noShunt] at h
    | tick t => exact loopTick_pres_dialDeb t s

/-- Claim C10: both debouncers boot with last-change timestamp 0 and stable
level HIGH, so any pulse sample before 20 ms is rejected, and after any
prefix of inputs that never touches the shunt line, a shunt sample arriving
before 50 ms is rejected: it changes no state (in particular no phase change)
and emits nothing, so no Started event arises from it. -/
theorem c10_early_samples_rejected (is : List Input) (level lv2 : Bool)
    (t u : Nat) (hall : is.all noShunt = true) (ht : t < 50) (hu : u < 20) :
    onShuntChange level t (run initialState is).1 =
      ((run initialState is).1, []) ∧
    onPulse lv2 u initialState = (initialState, []) := by
  constructor
  · have hd : (run initialState is).1.lastDialDebounce = 0 :=
      run_noShunt_dialDeb is initialState hall
    have hw : t - (run initialState is).1.lastDialDebounce <
        DIAL_DEBOUNCE_MS := by
      rw [hd]
      unfold DIAL_DEBOUNCE_MS
      omega
    simp [onShuntChange, hw]
  · have hw : u - initialState.lastPulseDebounce < PULSE_DEBOUNCE_MS := by
      unfold initialState PULSE_DEBOUNCE_MS
      omega
    simp [onPulse, hw]

/-- Witness for c10_early_samples_rejected: after a pulse sample at 25 ms and
a loop pass at 30 ms, a shunt LOW sample at 40 ms is rejected, and a pulse
LOW sample at 10 ms from boot is rejected. -/
theorem c10_witness :
    onShuntChange LOW 40 (run initialState [Input.pulse LOW 25,
        Input.tick 30]).1 =
      ((run initialState [Input.pulse LOW 25, Input.tick 30]).1, []) ∧
    onPulse LOW 10 initialState = (initialState, []) :=
  c10_early_samples_rejected [Input.pulse LOW 25, Input.tick 30] LOW LOW 40 10
    (by decide) (by decide) (by decide)

/-! ### Unfolding lemmas for traces -/

theorem run_cons (s : MachineState) (i : Input) (is : List Input) :
    run s (i :: is) =
      ((run (step s i).1 is).1, (step s i).2 ++ (run (step s i).1 is).2) := rfl

theorem runEdges_cons (s : MachineState) (i : Input) (is : List Input) :
    runEdges s (i :: is) =
      ((runEdges (stepEdge s i).1 is).1,
       (stepEdge s i).2 ++ (runEdges (stepEdge s i).1 is).2) := rfl

theorem runEdges_nil (s : MachineState) : runEdges s [] = (s, []) := rfl

/-! ### Overcount (claim C1) -/

/-- Raw trace of a cycle netting 11 counted pulses: shunt LOW at 100, eleven
LOW then HIGH pulse excursions 60 ms apart, shunt HIGH at 900. -/
def overcountTrace : List Input :=
  [Input.shunt LOW 100] ++
    (List.range 11).flatMap (fun k =>
      [Input.pulse LOW (200 + 60 * k), Input.pulse HIGH (230 + 60 * k)]) ++
    [Input.shunt HIGH 900]

/-- Counterexample to claim C1: a dialing cycle that nets 11 pulses and ends
with the shunt returning HIGH emits Started, Ended and a digit event with
value 11, and no safetyTimeout at all: the overcount is reported as a digit,
contradicting the claim. -/
theorem c1_counterexample :
    (run initialState overcountTrace).2 =
      [DialEvent.started, DialEvent.ended, DialEvent.digit 11 11] ∧
    DialEvent.safetyTimeout 11 ∉ (run initialState overcountTrace).2 ∧
    DialEvent.digit 11 11 ∈ (run initialState overcountTrace).2 := by
  decide

/-- Amended claim C1: when a dialing cycle holds pulses greater than 10,
completion by the shunt returning HIGH emits Ended followed by a digit event
whose value is the raw pulse count (no safetyTimeout), while completion by
the safety timeout emits safetyTimeout followed by the same digit event. -/
theorem c1_overcount_reported_as_digit (s : MachineState) (t u n : Nat)
    (hd : s.dialing = true) (hn : s.pulseCount = n) (h10 : 10 < n)
    (ht : DIAL_TIMEOUT_MS * 2 < u - s.dialingTimeout) :
    (shuntEdge HIGH t s).2 = [DialEvent.ended, DialEvent.digit n n] ∧
    (loopTick u s).2 = [DialEvent.safetyTimeout n, DialEvent.digit n n] := by
  subst hn
  have hne : ¬ s.pulseCount = 10 := by omega
  constructor
  · rw [shuntEdge_end_digit t s hd (by omega)]
    simp [hne]
  · rw [loopTick_fire_digit u s hd ht (by omega)]
    simp [hne]

/-- A Dialing state holding 11 counted pulses, as reached after
overcountTrace without its final shunt HIGH sample. -/
def sOver : MachineState where
  pulseCount := 11
  dialing := true
  lastPulseTime := 830
  dialingTimeout := 830
  lastDialState := LOW
  lastPulseState := HIGH
  lastPulseDebounce := 830
  lastDialDebounce := 100

/-- Witness for c1_overcount_reported_as_digit at the state with 11 pulses:
shunt HIGH at 900 ms and a loop pass at 3900 ms. -/
theorem c1_witness :
    (shuntEdge HIGH 900 sOver).2 =
      [DialEvent.ended, DialEvent.digit 11 11] ∧
    (loopTick 3900 sOver).2 =
      [DialEvent.safetyTimeout 11, DialEvent.digit 11 11] :=
  c1_overcount_reported_as_digit sOver 900 3900 11 (by decide) (by decide)
    (by decide) (by decide)

/-! ### Pulse counter and Idle (claim C4) -/

theorem onPulse_pres_dialing (level : Bool) (t : Nat) (s : MachineState) :
    (onPulse level t s).1.dialing = s.dialing := by
  unfold onPulse
  split
  · rfl
  split
  · dsimp only [pulseEdge]
    split <;> rfl
  · rfl

theorem onPulse_count_idle (level : Bool) (t : Nat) (s : MachineState)
    (hd : s.dialing = false) :
    (onPulse level t s).1.pulseCount = s.pulseCount := by
  by_cases hw : t - s.lastPulseDebounce < PULSE_DEBOUNCE_MS
  · simp [onPulse, hw]
  · by_cases hne : level ≠ s.lastPulseState
    · simp [onPulse, pulseEdge, hw, hne, hd]
    · simp [onPulse, hw, hne]

/-- From an Idle state every input either leaves the machine idle with the
pulse count and emissions unchanged and empty, or enters Dialing with the
pulse count reset to 0 and exactly a Started event emitted. -/
theorem step_idle_cases (s : MachineState) (i : Input)
    (hd : s.dialing = false) :
    ((step s i).1.dialing = false ∧
       (step s i).1.pulseCount = s.pulseCount ∧ (step s i).2 = []) ∨
    ((step s i).1.dialing = true ∧ (step s i).1.pulseCount = 0 ∧
       (step s i).2 = [DialEvent.started]) := by
  cases i with
  | pulse level t =>
    left
    refine ⟨?_, onPulse_count_idle level t s hd, onPulse_snd level t s⟩
    rw [step, onPulse_pres_dialing, hd]
  | shunt level t =>
    by_cases hc : level ≠ s.lastDialState ∧
        DIAL_DEBOUNCE_MS ≤ t - s.lastDialDebounce
    · rw [step, onShuntChange_accept level t s hc.1 hc.2]
      by_cases hl : level = LOW
      · right
        rw [shuntEdge_start level t s hd hl]
        exact ⟨rfl, rfl, rfl⟩
      · left
        rw [shuntEdge_other level t s (by simp [hl]) (by simp [hd])]
        exact ⟨hd, rfl, rfl⟩
    · left
      rw [step, onShuntChange_reject level t s hc]
      exact ⟨hd, rfl, rfl⟩
  | tick t =>
    left
    rw [step, loopTick_skip t s (by simp [hd])]
    exact ⟨hd, rfl, rfl⟩

/-- Counterexample to claim C4: after the raw trace that dials one pulse
(shunt LOW at 100, pulse LOW at 200, pulse HIGH at 250, shunt HIGH at 500)
the machine is Idle yet its pulse counter holds 1, not 0: the counter is not
reset on the Dialing to Idle transition. -/
theorem c4_counterexample :
    (run initialState [Input.shunt LOW 100, Input.pulse LOW 200,
        Input.pulse HIGH 250, Input.shunt HIGH 500]).1.dialing = false ∧
    (run initialState [Input.shunt LOW 100, Input.pulse LOW 200,
        Input.pulse HIGH 250, Input.shunt HIGH 500]).1.pulseCount = 1 := by
  decide

/-- Amended claim C4: the pulse counter is 0 in the initial Idle state, every
transition that enters Dialing resets it to 0, and it never changes while the
machine stays Idle; after a Dialing to Idle completion the counter therefore
retains the count of the completed cycle until the next dial start. -/
theorem c4_pulses_reset_on_start (s : MachineState) (i : Input)
    (hd : s.dialing = false) :
    initialState.pulseCount = 0 ∧
    ((step s i).1.dialing = true → (step s i).1.pulseCount = 0) ∧
    ((step s i).1.dialing = false →
      (step s i).1.pulseCount = s.pulseCount) := by
  refine ⟨rfl, ?_, ?_⟩ <;> intro h <;>
    rcases step_idle_cases s i hd with ⟨h1, h2, h3⟩ | ⟨h1, h2, h3⟩
  · rw [h1] at h
    cases h
  · exact h2
  · exact h2
  · rw [h1] at h
    cases h

/-- Witness for c4_pulses_reset_on_start: the accepted shunt LOW sample at
100 ms from boot enters Dialing with the counter reset to 0. -/
theorem c4_witness :
    (step initialState (Input.shunt LOW 100)).1.pulseCount = 0 :=
  (c4_pulses_reset_on_start initialState (Input.shunt LOW 100)
    (by decide)).2.1 (by decide)

/-! ### Bounce on the pulse line (claim C7) -/

/-- The S4 bounce scenario as a raw trace: shunt LOW at 100, pulse samples
LOW at 200, HIGH at 205, LOW at 210, HIGH at 215 (all within 20 ms of the
change at 200), shunt HIGH at 500. -/
def bounceTrace : List Input :=
  [Input.shunt LOW 100, Input.pulse LOW 200, Input.pulse HIGH 205,
   Input.pulse LOW 210, Input.pulse HIGH 215, Input.shunt HIGH 500]

/-- Counterexample to claim C7: on the S4 bounce trace the conditioner
accepts only the LOW change at 200 and rejects the three later toggles, so
zero pulse HIGH edges are netted, no pulse is counted, and the machine emits
Started and Ended without any digit, instead of the claimed single HIGH edge
and a digit event with value 1. -/
theorem c7_counterexample :
    (run initialState bounceTrace).2 =
      [DialEvent.started, DialEvent.ended] ∧
    DialEvent.digit 1 1 ∉ (run initialState bounceTrace).2 ∧
    (run initialState bounceTrace).1.pulseCount = 0 := by
  decide

/-- Amended claim C7: on the S4 raw trace the conditioner nets zero pulse
HIGH edges and the machine emits Started then Ended with no digit; in
general a pulse sample arriving within 20 ms of the last accepted pulse
change is rejected and leaves the whole state unchanged with nothing
emitted, so inserting such toggles cannot change the emitted events. -/
theorem c7_bounce_rejected (s : MachineState) (level : Bool) (t : Nat)
    (hw : t - s.lastPulseDebounce < PULSE_DEBOUNCE_MS) :
    (run initialState bounceTrace).2 =
      [DialEvent.started, DialEvent.ended] ∧
    onPulse level t s = (s, []) := by
  constructor
  · decide
  · simp [onPulse, hw]

/-- Witness for c7_bounce_rejected: in the dialing state with last accepted
pulse change at 420 ms, a pulse LOW sample at 430 ms is a no-op. -/
theorem c7_witness : onPulse LOW 430 sDial = (sDial, []) :=
  (c7_bounce_rejected sDial LOW 430 (by decide)).2

/-! ### Empty cycle (claim C8) -/

/-- Claim C8: a cycle in which a debounced shunt LOW edge is followed by a
debounced shunt HIGH edge with no pulse counted in between emits Started
then Ended and no digit event; in any dialing state whose pulse count is 0
the closing shunt HIGH edge emits only Ended. -/
theorem c8_empty_cycle (s : MachineState) (t0 t1 : Nat)
    (hd : s.dialing = false) :
    (runEdges s [Input.shunt LOW t0, Input.shunt HIGH t1]).2 =
      [DialEvent.started, DialEvent.ended] ∧
    (∀ (s2 : MachineState) (t : Nat), s2.dialing = true →
      s2.pulseCount = 0 → (shuntEdge HIGH t s2).2 = [DialEvent.ended]) := by
  constructor
  · have e1 := shuntEdge_start LOW t0 s hd rfl
    simp only [runEdges_cons, runEdges_nil, stepEdge, e1]
    rw [shuntEdge_end_empty t1 _ rfl rfl]
    simp
  · intro s2 t h0 h1
    rw [shuntEdge_end_empty t s2 h0 h1]

/-- Witness for c8_empty_cycle: scenario S6, shunt LOW at 100 then shunt HIGH
at 300 from boot. -/
theorem c8_witness :
    (runEdges initialState [Input.shunt LOW 100, Input.shunt HIGH 300]).2 =
      [DialEvent.started, DialEvent.ended] :=
  (c8_empty_cycle initialState 100 300 (by decide)).1

/-! ### Safety timeout (claim C3) -/

/-- Claim C3: while Dialing, once strictly more than 3000 ms have elapsed
since dialingTimeout (the time of the last counted pulse, or of the dial
start when no pulse was counted), the next loop pass emits safetyTimeout
carrying the current pulse count as its first event and returns the machine
to Idle; in particular scenario S5 (shunt LOW at 100, debounced pulse HIGH
edges at 220, 320 and 420, then a loop pass at 3421) emits safetyTimeout 3
and is Idle afterwards. -/
theorem c3_safety_timeout (s : MachineState) (t : Nat)
    (hd : s.dialing = true)
    (ht : DIAL_TIMEOUT_MS * 2 < t - s.dialingTimeout) :
    (loopTick t s).2.head? = some (DialEvent.safetyTimeout s.pulseCount) ∧
    (loopTick t s).1.dialing = false ∧
    (runEdges initialState [Input.shunt LOW 100, Input.pulse HIGH 220,
        Input.pulse HIGH 320, Input.pulse HIGH 420, Input.tick 3421]).2 =
      [DialEvent.started, DialEvent.safetyTimeout 3, DialEvent.digit 3 3] ∧
    (runEdges initialState [Input.shunt LOW 100, Input.pulse HIGH 220,
        Input.pulse HIGH 320, Input.pulse HIGH 420,
        Input.tick 3421]).1.dialing = false := by
  refine ⟨?_, ?_, by decide, by decide⟩
  · by_cases hp : s.pulseCount = 0
    · rw [loopTick_fire_empty t s hd ht hp]
      rfl
    · rw [loopTick_fire_digit t s hd ht (Nat.pos_of_ne_zero hp)]
      rfl
  · by_cases hp : s.pulseCount = 0
    · rw [loopTick_fire_empty t s hd ht hp]
    · rw [loopTick_fire_digit t s hd ht (Nat.pos_of_ne_zero hp)]

/-- Witness for c3_safety_timeout: the dialing state with 3 pulses last
counted at 420 ms, loop pass at 3421 ms. -/
theorem c3_witness :
    (loopTick 3421 sDial).2.head? = some (DialEvent.safetyTimeout 3) ∧
    (loopTick 3421 sDial).1.dialing = false :=
  ⟨(c3_safety_timeout sDial 3421 (by decide) (by decide)).1,
   (c3_safety_timeout sDial 3421 (by decide) (by decide)).2.1⟩

/-! ### At most one completion per cycle (claim C9) -/

theorem shuntEdge_completion_idle (level : Bool) (t : Nat) (s : MachineState)
    (e : DialEvent) (h1 : e ∈ (shuntEdge level t s).2)
    (h2 : isCompletion e = true) :
    (shuntEdge level t s).1.dialing = false := by
  by_cases hd : s.dialing = true
  · by_cases hl : level = HIGH
    · subst hl
      by_cases hp : s.pulseCount = 0
      · rw [shuntEdge_end_empty t s hd hp]
      · rw [shuntEdge_end_digit t s hd (Nat.pos_of_ne_zero hp)]
    · rw [shuntEdge_other level t s (by simp [hd]) (by simp [hl])] at h1
      simp at h1
  · by_cases hl : level = LOW
    · rw [shuntEdge_start level t s (by simpa using hd) hl] at h1
      simp at h1
      subst h1
      simp [isCompletion] at h2
    · rw [shuntEdge_other level t s (by simp [hl]) (by simp [hd])] at h1
      simp at h1

theorem onShuntChange_completion_idle (level : Bool) (t : Nat)
    (s : MachineState) (e : DialEvent) (h1 : e ∈ (onShuntChange level t s).2)
    (h2 : isCompletion e = true) :
    (onShuntChange level t s).1.dialing = false := by
  by_cases hc : level ≠ s.lastDialState ∧
      DIAL_DEBOUNCE_MS ≤ t - s.lastDialDebounce
  · rw [onShuntChange_accept level t s hc.1 hc.2] at h1 ⊢
    exact shuntEdge_completion_idle level t s e h1 h2
  · rw [onShuntChange_reject level t s hc] at h1
    simp at h1

theorem run_idle_no_completion (is : List Input) (s : MachineState)
    (hd : s.dialing = false) :
    ∀ e ∈ eventsBeforeStarted (run s is).2, isCompletion e = false := by
  induction is generalizing s with
  | nil =>
    intro e he
    simp [run, eventsBeforeStarted] at he
  | cons i is ih =>
    intro e he
    rcases step_idle_cases s i hd with ⟨h1, _h2, h3⟩ | ⟨_h1, _h2, h3⟩
    · rw [run_cons, h3] at he
      simp only [List.nil_append] at he
      exact ih _ h1 e he
    · rw [run_cons, h3] at he
      simp [eventsBeforeStarted] at he

/-- Claim C9: from any state that is not Dialing, the events produced by any
further raw inputs contain no Ended, digit or safetyTimeout before the next
Started, and every step that emits such a completion event leaves the
machine idle; hence once a shunt HIGH edge or a safety timeout has closed a
cycle, no further completion (in particular no second digit) is emitted for
it until a new Started opens the next cycle. -/
theorem c9_single_completion (s : MachineState) (is : List Input)
    (hd : s.dialing = false) :
    (∀ e ∈ eventsBeforeStarted (run s is).2, isCompletion e = false) ∧
    (∀ (s2 : MachineState) (i : Input) (e : DialEvent), e ∈ (step s2 i).2 →
      isCompletion e = true → (step s2 i).1.dialing = false) := by
  refine ⟨run_idle_no_completion is s hd, ?_⟩
  intro s2 i e h1 h2
  cases i with
  | pulse level t =>
    rw [step, onPulse_snd] at h1
    simp at h1
  | shunt level t => exact onShuntChange_completion_idle level t s2 e h1 h2
  | tick t => exact loopTick_mem_idle t s2 e h1

/-- Witness for c9_single_completion: the shunt HIGH completion at 900 ms of
the 11-pulse cycle leaves the machine idle. -/
theorem c9_witness : (step sOver (Input.shunt HIGH 900)).1.dialing = false :=
  (c9_single_completion initialState [] (by decide)).2 sOver
    (Input.shunt HIGH 900) DialEvent.ended (by decide) (by decide)

/-! ### Digit correctness (claim C2) -/

theorem runEdges_append (s : MachineState) (as bs : List Input) :
    runEdges s (as ++ bs) =
      ((runEdges (runEdges s as).1 bs).1,
       (runEdges s as).2 ++ (runEdges (runEdges s as).1 bs).2) := by
  induction as generalizing s with
  | nil => simp [runEdges]
  | cons a as ih =>
    simp only [List.cons_append, runEdges_cons, ih, List.append_assoc]

theorem runEdges_pulses (ts : List Nat) (s : MachineState)
    (hd : s.dialing = true) :
    (runEdges s (ts.map (Input.pulse HIGH))).2 = [] ∧
    (runEdges s (ts.map (Input.pulse HIGH))).1.dialing = true ∧
    (runEdges s (ts.map (Input.pulse HIGH))).1.pulseCount =
      s.pulseCount + ts.length := by
  induction ts generalizing s with
  | nil => exact ⟨rfl, hd, rfl⟩
  | cons t ts ih =>
    have e1 := pulseEdge_count t s hd
    have h2 : (stepEdge s (Input.pulse HIGH t)).1.dialing = true := by
      simp only [stepEdge]
      rw [e1]
      exact hd
    have h3 : (stepEdge s (Input.pulse HIGH t)).1.pulseCount =
        s.pulseCount + 1 := by
      simp only [stepEdge]
      rw [e1]
    have h4 : (stepEdge s (Input.pulse HIGH t)).2 = [] := by
      simp only [stepEdge]
      rw [e1]
    obtain ⟨ih1, ih2, ih3⟩ := ih (stepEdge s (Input.pulse HIGH t)).1 h2
    refine ⟨?_, ih2, ?_⟩
    · show ((stepEdge s (Input.pulse HIGH t)).2 ++
        (runEdges (stepEdge s (Input.pulse HIGH t)).1
          (ts.map (Input.pulse HIGH))).2) = []
      rw [h4, ih1]
      rfl
    · show (runEdges (stepEdge s (Input.pulse HIGH t)).1
          (ts.map (Input.pulse HIGH))).1.pulseCount =
        s.pulseCount + (t :: ts).length
      rw [ih3, h3, List.length_cons]
      omega

/-- Claim C2: for every n from 1 to 10, a trace of one debounced shunt LOW
edge at t0, exactly n debounced pulse HIGH edges at strictly increasing
times separated by at least the 20 ms pulse window, then a debounced shunt
HIGH edge at tend arriving less than 3000 ms after the last pulse and at
least the 50 ms shunt window after t0, makes the machine emit exactly
Started, then Ended, then the digit event with value n (0 when n is 10) and
pulse count n. -/
theorem c2_digit_correctness (n t0 tend : Nat) (ts : List Nat)
    (hn1 : 1 ≤ n) (hn10 : n ≤ 10) (hlen : ts.length = n)
    (_hsep : sepOK PULSE_DEBOUNCE_MS t0 ts = true)
    (_hend1 : lastTime t0 ts < tend)
    (_hend2 : tend - lastTime t0 ts < DIAL_TIMEOUT_MS * 2)
    (_hshunt : t0 + DIAL_DEBOUNCE_MS ≤ tend) :
    (runEdges initialState (Input.shunt LOW t0 ::
        (ts.map (Input.pulse HIGH) ++ [Input.shunt HIGH tend]))).2 =
      [DialEvent.started, DialEvent.ended,
       DialEvent.digit (if n = 10 then 0 else n) n] := by
  have e1 := shuntEdge_start LOW t0 initialState rfl rfl
  have hD : (stepEdge initialState (Input.shunt LOW t0)).1.dialing = true := by
    simp only [stepEdge]
    rw [e1]
  have hD0 : (stepEdge initialState (Input.shunt LOW t0)).1.pulseCount
      = 0 := by
    simp only [stepEdge]
    rw [e1]
  have hDev : (stepEdge initialState (Input.shunt LOW t0)).2 =
      [DialEvent.started] := by
    simp only [stepEdge]
    rw [e1]
  obtain ⟨p1, p2, p3⟩ := runEdges_pulses ts
    (stepEdge initialState (Input.shunt LOW t0)).1 hD
  have hPn : (runEdges (stepEdge initialState (Input.shunt LOW t0)).1
      (ts.map (Input.pulse HIGH))).1.pulseCount = n := by
    rw [p3, hD0, hlen]
    omega
  show ((stepEdge initialState (Input.shunt LOW t0)).2 ++
      (runEdges (stepEdge initialState (Input.shunt LOW t0)).1
        (ts.map (Input.pulse HIGH) ++ [Input.shunt HIGH tend])).2) =
    [DialEvent.started, DialEvent.ended,
     DialEvent.digit (if n = 10 then 0 else n) n]
  rw [runEdges_append, hDev, p1]
  have e3 : (runEdges (runEdges
      (stepEdge initialState (Input.shunt LOW t0)).1
      (ts.map (Input.pulse HIGH))).1 [Input.shunt HIGH tend]).2 =
      [DialEvent.ended, DialEvent.digit (if n = 10 then 0 else n) n] := by
    show ((shuntEdge HIGH tend (runEdges
        (stepEdge initialState (Input.shunt LOW t0)).1
        (ts.map (Input.pulse HIGH))).1).2 ++ []) = _
    rw [shuntEdge_end_digit tend _ p2 (by rw [hPn]; omega)]
    simp [hPn]
  rw [e3]
  simp

/-- Witness for c2_digit_correctness: dialing the digit 1 (scenario close to
S1), shunt LOW at 100, one debounced pulse HIGH edge at 150, shunt HIGH at
500. -/
theorem c2_witness :
    (runEdges initialState [Input.shunt LOW 100, Input.pulse HIGH 150,
        Input.shunt HIGH 500]).2 =
      [DialEvent.started, DialEvent.ended, DialEvent.digit 1 1] := by
  have h := c2_digit_correctness 1 100 500 [150] (by decide) (by decide) rfl
    (by decide) (by decide) (by decide) (by decide)
  simpa using h
